import Mathlib

/-!
Shallow embedding of `parse_topology_tool.py`: a heuristic network-topology
generator that parses router config dumps, matches interfaces into
router-to-router links by shared IPv4 subnet, infers access LANs
(switch plus endpoints) for single-interface subnets, assigns hierarchy
layers, and annotates every link with a traffic load and an overload flag.

Python-specific behaviour is modelled explicitly: `or`-chains on optional
integers use truthiness (`0` counts as absent), dictionaries are
insertion-ordered association lists, `ipaddress.IPv4Network` construction is
fallible (`Option`, where `none` models a raised `ValueError`), and the
`random` module is an explicitly threaded deterministic generator state
(the concrete generator stands in for the Mersenne twister; the claims
below only use its determinism, never its distribution).
-/

namespace AutoTopo

/-! ## Python string primitives -/

/-- Character-list core of Python `str.startswith`. -/
def strStarts : List Char → List Char → Bool
  | [], _ => true
  | _ :: _, [] => false
  | p :: ps, c :: cs => p = c && strStarts ps cs

/-- Python `s.startswith(t)`. -/
def pyStartsWith (s t : String) : Bool :=
  strStarts t.data s.data

/-- Split a character list at every separator satisfying `p` (pieces may be
empty); the worker carries the current piece reversed. -/
def splitPredAux (p : Char → Bool) : List Char → List Char → List (List Char)
  | cur, [] => [cur.reverse]
  | cur, c :: cs => if p c then cur.reverse :: splitPredAux p [] cs else splitPredAux p (c :: cur) cs

/-- Python `s.split(sep)` for a one-character separator. -/
def pySplitOn (s : String) (sep : Char) : List String :=
  (splitPredAux (fun c => c = sep) [] s.data).map String.mk

/-- Python `s.split()` — split on whitespace runs, dropping empty pieces. -/
def pySplit (s : String) : List String :=
  ((splitPredAux Char.isWhitespace [] s.data).filter (fun t => t ≠ [])).map String.mk

/-- Drop leading whitespace from a character list. -/
def dropWS : List Char → List Char
  | [] => []
  | c :: cs => if c.isWhitespace then dropWS cs else c :: cs

/-- Python `s.strip()`. -/
def pyTrim (s : String) : String :=
  String.mk (dropWS (dropWS s.data.reverse).reverse)

/-- Python `s.split(maxsplit=1)`: first whitespace-delimited token, then the
remainder with its leading whitespace removed. -/
def pySplitOnce (s : String) : List String :=
  match dropWS s.data with
  | [] => []
  | c :: cs =>
    let tok := (c :: cs).takeWhile (fun d => !d.isWhitespace)
    let rest := dropWS ((c :: cs).dropWhile (fun d => !d.isWhitespace))
    match rest with
    | [] => [String.mk tok]
    | _ => [String.mk tok, String.mk rest]

def digitVal (c : Char) : Nat := c.toNat - 48

/-- Decimal digits with Python's single-underscore grouping. -/
def decDigits : Nat → List Char → Option Nat
  | acc, [] => some acc
  | acc, c :: cs =>
    if c.isDigit then decDigits (acc * 10 + digitVal c) cs
    else if c = '_' then
      match cs with
      | d :: cs2 => if d.isDigit then decDigits (acc * 10 + digitVal d) cs2 else none
      | [] => none
    else none

def decStart : List Char → Option Nat
  | [] => none
  | c :: cs => if c.isDigit then decDigits (digitVal c) cs else none

/-- Python `int(s)` on a whitespace-free token (sign, digits, underscores). -/
def pyToInt (s : String) : Option Int :=
  match (pyTrim s).data with
  | '-' :: cs => (decStart cs).map (fun n => -(n : Int))
  | '+' :: cs => (decStart cs).map (fun n => (n : Int))
  | cs => (decStart cs).map (fun n => (n : Int))

/-- Python truthiness of an optional string (`None` and `""` are falsy). -/
def truthyS : Option String → Bool
  | none => false
  | some s => s ≠ ""

/-- Python `a or k` on an optional integer `a`: `None` and `0` fall through. -/
def pyOrInt (a : Option Int) (k : Int) : Int :=
  match a with
  | none => k
  | some x => if x = 0 then k else x

/-- Python `f"{x}"` on an optional string (`None` prints as `"None"`). -/
def pyStr : Option String → String
  | none => "None"
  | some s => s

/-! ## `ipaddress.IPv4Network` (strict=False) -/

/-- One dotted-quad octet: decimal digits only, at most 3 of them, no leading
zero, value at most 255 (CPython `_parse_octet`). -/
def parseOctet (s : String) : Option Nat :=
  let cs := s.data
  if cs = [] then none
  else if !cs.all Char.isDigit then none
  else if 3 < cs.length then none
  else if cs.length > 1 && cs.headD '0' = '0' then none
  else
    let v := cs.foldl (fun a c => a * 10 + digitVal c) 0
    if 255 < v then none else some v

/-- Parse a dotted-quad IPv4 address to its 32-bit value. -/
def parseIPv4 (s : String) : Option Nat :=
  match pySplitOn s '.' with
  | [a, b, c, d] => do
    let x ← parseOctet a
    let y ← parseOctet b
    let z ← parseOctet c
    let w ← parseOctet d
    some (((x * 256 + y) * 256 + z) * 256 + w)
  | _ => none

/-- 32-bit netmask value of a given length. -/
def netmaskOf (p : Nat) : Nat := 2 ^ 32 - 2 ^ (32 - p)

/-- 32-bit hostmask value of a given length. -/
def hostmaskOf (p : Nat) : Nat := 2 ^ (32 - p) - 1

/-- CPython `_make_netmask`: an all-digits string is a mask length; otherwise
a dotted quad that must be a valid netmask, or failing that a hostmask. -/
def parseMask (s : String) : Option Nat :=
  if !s.data.isEmpty && s.data.all Char.isDigit then
    let v := s.data.foldl (fun a c => a * 10 + digitVal c) 0
    if v ≤ 32 then some v else none
  else
    match parseIPv4 s with
    | none => none
    | some v =>
      match (List.range 33).find? (fun p => v = netmaskOf p) with
      | some p => some p
      | none => (List.range 33).find? (fun p => v = hostmaskOf p)

/-- An IPv4 network: masked network address plus mask length.
`IPv4Network` equality in Python compares exactly these two fields. -/
structure Net where
  addr : Nat
  pLen : Nat
deriving DecidableEq

/-- Clear the host bits (`strict=False` network construction). -/
def maskAddr (v p : Nat) : Nat := v / 2 ^ (32 - p) * 2 ^ (32 - p)

/-- `ipaddress.IPv4Network(f"{ip}/{mask}", strict=False)`; `none` models the
raised `ValueError`.  The f-string is split on `/`, so a slash inside either
token also fails. -/
def mkIPv4Net (ip mask : String) : Option Net :=
  match pySplitOn (ip ++ "/" ++ mask) '/' with
  | [a, m] => do
    let v ← parseIPv4 a
    let p ← parseMask m
    some ⟨maskAddr v p, p⟩
  | _ => none

/-- Python `str(IPv4Network)`: dotted network address, slash, mask length. -/
def netToString (n : Net) : String :=
  toString (n.addr / 16777216 % 256) ++ "." ++ toString (n.addr / 65536 % 256) ++ "." ++
    toString (n.addr / 256 % 256) ++ "." ++ toString (n.addr % 256) ++ "/" ++ toString n.pLen

/-! ## Data model and config parser (`parse_config`) -/

/-- One parsed interface record. -/
structure Iface where
  name : String
  ip : Option String
  mask : Option String
  bandwidth : Option Int
deriving DecidableEq

/-- One parsed router: hostname (possibly absent) and its interfaces in order. -/
structure RouterData where
  hostname : Option String
  interfaces : List Iface
deriving DecidableEq

/-- Parser state: hostname seen so far, closed interface records, and the
still-open record. -/
structure PState where
  hostname : Option String
  acc : List Iface
  current : Option Iface
deriving DecidableEq

/-- Close out the in-progress interface record, appending it. -/
def closeCur (acc : List Iface) : Option Iface → List Iface
  | some c => acc ++ [c]
  | none => acc

/-- Name a new interface record from its directive line
(`split(maxsplit=1)`; sentinel `"UNKNOWN"` when the line has no name token). -/
def ifaceNameOfLine (line : String) : String :=
  let parts := pySplitOnce line
  if parts.length = 2 then parts.getD 1 "" else "UNKNOWN"

/-- Process one raw line of a config dump (the `elif` chain of `parse_config`). -/
def parseLine (st : PState) (raw : String) : PState :=
  let line := pyTrim raw
  if line = "" then st
  else if pyStartsWith line "hostname" then
    let parts := pySplit line
    if 2 ≤ parts.length then { st with hostname := some (parts.getD 1 "") } else st
  else if pyStartsWith line "interface" then
    { hostname := st.hostname, acc := closeCur st.acc st.current,
      current := some ⟨ifaceNameOfLine line, none, none, none⟩ }
  else if pyStartsWith line "ip address" then
    match st.current with
    | some c =>
      let parts := pySplit line
      if 4 ≤ parts.length then
        { st with current := some { c with ip := some (parts.getD 2 ""), mask := some (parts.getD 3 "") } }
      else st
    | none => st
  else if pyStartsWith line "bandwidth" then
    match st.current with
    | some c =>
      let parts := pySplit line
      if 2 ≤ parts.length then
        match pyToInt (parts.getD 1 "") with
        | some n => { st with current := some { c with bandwidth := some n } }
        | none => st
      else st
    | none => st
  else st

/-- `parse_config`, over the list of raw lines of the file. -/
def parseConfig (lines : List String) : RouterData :=
  let st := lines.foldl parseLine { hostname := none, acc := [], current := none }
  { hostname := st.hostname, interfaces := closeCur st.acc st.current }

/-- The stripped lines that reach the `interface` branch of the parser. -/
def interfaceLines (lines : List String) : List String :=
  (lines.map pyTrim).filter (fun l => pyStartsWith l "interface")

/-! ## Association lists: Python dict lookup / `setdefault` -/

/-- First-match lookup in an association list (Python `m[k]` / `k in m`). -/
def alookup {κ α : Type} [DecidableEq κ] (k : κ) : List (κ × α) → Option α
  | [] => none
  | (k', v) :: r => if k' = k then some v else alookup k r

/-- `m.setdefault(k, []).append(v)`: extend the entry in place, or append a
fresh singleton entry at the end (insertion-ordered dict). -/
def addAttach {κ α : Type} [DecidableEq κ] (m : List (κ × List α)) (k : κ) (v : α) :
    List (κ × List α) :=
  match m with
  | [] => [(k, [v])]
  | (k', vs) :: r => if k' = k then (k', vs ++ [v]) :: r else (k', vs) :: addAttach r k v

/-- The keys of an association list, in order. -/
def keysOf {κ α : Type} (m : List (κ × α)) : List κ := m.map Prod.fst

/-! ## Process-wide configuration (the CONFIG constants of the script) -/

structure Config where
  LOAD_MODE : String
  TRAFFIC_MIN : Int
  TRAFFIC_MAX : Int
  FIXED_LOAD : Int
  RANDOM_SEED : Option Nat
  DEFAULT_ROUTER_IF_BW : Int
  DEFAULT_ENDPOINT_LINK_BW : Int
  ENDPOINTS_PER_LAN : Nat
  USE_PEAK : Bool
deriving DecidableEq

/-- The literal values assigned at the top of the script. -/
def defaultConfig : Config :=
  { LOAD_MODE := "apps", TRAFFIC_MIN := 2000, TRAFFIC_MAX := 15000, FIXED_LOAD := 8000,
    RANDOM_SEED := none, DEFAULT_ROUTER_IF_BW := 10000, DEFAULT_ENDPOINT_LINK_BW := 1000,
    ENDPOINTS_PER_LAN := 2, USE_PEAK := true }

/-- `APP_PROFILES`: name, peak kbps, average kbps, in dict order. -/
def APP_PROFILES : List (String × Int × Int) :=
  [("Web Browsing", 2000, 500), ("Video Streaming", 8000, 5000), ("VoIP", 512, 256),
   ("File Transfer", 9000, 6000), ("Cloud Backup", 7000, 4000)]

/-! ## `find_router_links` -/

/-- A link as emitted by the script: two node identifiers (router hostnames may
be `None`, synthesized names are injected strings) and a bandwidth. -/
abbrev Link : Type := Option String × Option String × Int

/-- The interfaces that pass the `if iface["ip"] and iface["mask"]` test,
flattened across routers in order, paired with their router's hostname. -/
def ifaceEntryList (routers : List RouterData) : List (Option String × Iface) :=
  routers.flatMap (fun r =>
    (r.interfaces.filter (fun i => truthyS i.ip && truthyS i.mask)).map (fun i => (r.hostname, i)))

/-- Build the `(routerName, iface, network)` helper list; `none` models the
`ValueError` raised on the first malformed address/mask pair. -/
def entGo : List (Option String × Iface) → Option (List (Option String × Iface × Net))
  | [] => some []
  | (h, i) :: rest =>
    match mkIPv4Net (i.ip.getD "") (i.mask.getD "") with
    | none => none
    | some net => (entGo rest).map (fun t => (h, i, net) :: t)

def buildAllIfaces (routers : List RouterData) : Option (List (Option String × Iface × Net)) :=
  entGo (ifaceEntryList routers)

/-- The doubly nested pair loop of `find_router_links`: for every `i < j` with
equal networks, emit a link whose bandwidth is the Python `or`-chain
`ia["bandwidth"] or ib["bandwidth"] or DEFAULT_ROUTER_IF_BW`. -/
def pairLoop (cfg : Config) : List (Option String × Iface × Net) → List Link
  | [] => []
  | (ra, ia, na) :: rest =>
    (rest.filterMap (fun e =>
      if na = e.2.2 then
        some (ra, e.1, pyOrInt ia.bandwidth (pyOrInt e.2.1.bandwidth cfg.DEFAULT_ROUTER_IF_BW))
      else none)) ++ pairLoop cfg rest

def findRouterLinks (cfg : Config) (routers : List RouterData) : Option (List Link) :=
  (buildAllIfaces routers).map (pairLoop cfg)

/-! ## `infer_access_lans` -/

/-- One entry of `net_map`: router hostname, interface name, and the interface
bandwidth already defaulted through the `or`-chain. -/
abbrev Attach : Type := Option String × String × Int

/-- Build `net_map` keyed by `str(net)`, in interface order; `none` models the
`ValueError` raised on the first malformed address/mask pair. -/
def nmGo (cfg : Config) : List (Option String × Iface) → List (String × List Attach) →
    Option (List (String × List Attach))
  | [], m => some m
  | (h, i) :: rest, m =>
    match mkIPv4Net (i.ip.getD "") (i.mask.getD "") with
    | none => none
    | some net =>
      nmGo cfg rest (addAttach m (netToString net) (h, i.name, pyOrInt i.bandwidth cfg.DEFAULT_ROUTER_IF_BW))

def buildNetMap (cfg : Config) (routers : List RouterData) : Option (List (String × List Attach)) :=
  nmGo cfg (ifaceEntryList routers) []

/-- `f"SW_{rname}_{iname.replace('/', '_')}"`. -/
def swNameFor (r : Option String) (i : String) : String :=
  "SW_" ++ pyStr r ++ "_" ++ String.mk (i.data.map (fun c => if c = '/' then '_' else c))

/-- `f"PC_{sw_name}_{idx}"` for `idx` in `1 .. ENDPOINTS_PER_LAN`. -/
def epNamesFor (cfg : Config) (sw : String) : List String :=
  (List.range cfg.ENDPOINTS_PER_LAN).map (fun k => "PC_" ++ sw ++ "_" ++ toString (k + 1))

/-- A synthesized access switch. -/
structure Switch where
  name : String
  router : Option String
  lan_net : String
deriving DecidableEq

/-- The loop over `net_map.items()`: every subnet with exactly one attached
interface yields one switch, its router link, and the endpoint fan-out. -/
def lanFold (cfg : Config) : List (String × List Attach) → List Switch × List String × List Link
  | [] => ([], [], [])
  | (net, atts) :: rest =>
    let t := lanFold cfg rest
    match atts with
    | [(rname, iname, rbw)] =>
      let sw := swNameFor rname iname
      (⟨sw, rname, net⟩ :: t.1,
       epNamesFor cfg sw ++ t.2.1,
       ((rname, some sw, rbw) ::
         (epNamesFor cfg sw).map (fun ep => (some sw, some ep, cfg.DEFAULT_ENDPOINT_LINK_BW))) ++ t.2.2)
    | _ => t

def inferAccessLans (cfg : Config) (routers : List RouterData) :
    Option (List Switch × List String × List Link) :=
  (buildNetMap cfg routers).map (lanFold cfg)

/-! ## `auto_assign_layers` -/

/-- The layer dict: node identifier to layer number. -/
abbrev LayerMap : Type := List (Option String × Nat)

/-- `layer[k] = v`: overwrite in place or append. -/
def dset (m : LayerMap) (k : Option String) (v : Nat) : LayerMap :=
  match m with
  | [] => [(k, v)]
  | (k', v') :: r => if k' = k then (k, v) :: r else (k', v') :: dset r k v

/-- `layer.setdefault(k, v)`. -/
def dsetd (m : LayerMap) (k : Option String) (v : Nat) : LayerMap :=
  match alookup k m with
  | some _ => m
  | none => m ++ [(k, v)]

def dget (m : LayerMap) (k : Option String) : Option Nat := alookup k m

/-- Python `max` over a nonempty list, seeded with its head. -/
def maxOf (x : Int) (xs : List Int) : Int := xs.foldl max x

/-- Python `min` over a nonempty list, seeded with its head. -/
def minOf (x : Int) (xs : List Int) : Int := xs.foldl min x

/-- First pass (unequal bandwidths): both ends of every maximum-bandwidth link
become Core (layer 0). -/
def pass1 (maxbw : Int) : List Link → LayerMap → LayerMap
  | [], m => m
  | (a, b, bw) :: rest, m =>
    pass1 maxbw rest (if bw = maxbw then dset (dset m a 0) b 0 else m)

/-- Loop body of the second pass for one link `(a, b)`. -/
def pass2step (m : LayerMap) (a b : Option String) : LayerMap :=
  let m1 := if (dget m a).isNone && (dget m b).isSome then dset m a 1 else m
  if (dget m1 b).isNone && (dget m1 a).isSome then dset m1 b 1 else m1

/-- Second pass: an unassigned router whose link partner is already assigned
becomes layer 1, sequentially over the link list. -/
def pass2 : List Link → LayerMap → LayerMap
  | [], m => m
  | (a, b, _) :: rest, m => pass2 rest (pass2step m a b)

/-- Third pass: any router still unassigned defaults to layer 2. -/
def pass3 : List Link → LayerMap → LayerMap
  | [], m => m
  | (a, b, _) :: rest, m => pass3 rest (dsetd (dsetd m a 2) b 2)

/-- Loop body of the equal-bandwidth pass for one link `(a, b)`. -/
def passEqStep (core : Option String) (m : LayerMap) (a b : Option String) : LayerMap :=
  let m1 := if a ≠ core then dsetd m a 1 else m
  if b ≠ core then dsetd m1 b 1 else m1

/-- Equal-bandwidth branch: every touched router other than the designated
core gets `setdefault(_, 1)`. -/
def passEq (core : Option String) : List Link → LayerMap → LayerMap
  | [], m => m
  | (a, b, _) :: rest, m => passEq core rest (passEqStep core m a b)

/-- The router part of `auto_assign_layers` (empty link list assigns nothing). -/
def routerLayerMap : List Link → LayerMap
  | [] => []
  | l0 :: rest =>
    let maxbw := maxOf l0.2.2 (rest.map (fun l => l.2.2))
    let minbw := minOf l0.2.2 (rest.map (fun l => l.2.2))
    if maxbw = minbw then passEq l0.1 (l0 :: rest) (dset [] l0.1 0)
    else pass3 (l0 :: rest) (pass2 (l0 :: rest) (pass1 maxbw (l0 :: rest) []))

def swPass (sws : List Switch) (m : LayerMap) : LayerMap :=
  sws.foldl (fun m s => dset m (some s.name) 2) m

def epPass (eps : List String) (m : LayerMap) : LayerMap :=
  eps.foldl (fun m e => dset m (some e) 3) m

def autoAssignLayers (router_links : List Link) (switches : List Switch)
    (endpoints : List String) : LayerMap :=
  epPass endpoints (swPass switches (routerLayerMap router_links))

/-! ## Random source and the load annotator -/

/-- Explicit state of the `random` module.  A 64-bit linear congruential
generator stands in for the Mersenne twister: the claims below use only that
the source is deterministic, never its distribution. -/
structure Gen where
  s : Nat
deriving DecidableEq

def genNext (g : Gen) : Nat × Gen :=
  let s' := (6364136223846793005 * g.s + 1442695040888963407) % 18446744073709551616
  (s', ⟨s'⟩)

/-- `random.randint(lo, hi)`; `none` models the `ValueError` on `hi < lo`. -/
def pyRandint (lo hi : Int) (g : Gen) : Option (Int × Gen) :=
  if lo ≤ hi then
    let p := genNext g
    some (lo + (p.1 : Int) % (hi - lo + 1), p.2)
  else none

/-- `random.choice(pop)`; `none` models the error on an empty population. -/
def pyChoice (pop : List String) (g : Gen) : Option (String × Gen) :=
  match pop with
  | [] => none
  | _ =>
    let p := genNext g
    some (pop.getD (p.1 % pop.length) "", p.2)

/-- Walk the cumulative weights: pick the first element whose weight bucket
contains the target. -/
def pickByWeight : List (String × Int) → Int → Option String
  | [], _ => none
  | (x, w) :: rest, t => if t < w then some x else pickByWeight rest (t - w)

/-- `random.choices(pop, weights, k=1)[0]`; `none` models the errors on a
length mismatch or a nonpositive total weight. -/
def pyChoices (pop : List String) (weights : List Int) (g : Gen) : Option (String × Gen) :=
  if pop.length = weights.length ∧ 0 < weights.sum then
    let p := genNext g
    match pickByWeight (pop.zip weights) ((p.1 : Int) % weights.sum) with
    | some x => some (x, p.2)
    | none => none
  else none

/-- `compute_load`: the bandwidth argument is accepted and ignored; `none`
models the uncaught exceptions (bad `randint` range, unknown profile key). -/
def computeLoad (cfg : Config) (bw : Int) (app_choice : Option String) (g : Gen) :
    Option (Int × Gen) :=
  if cfg.LOAD_MODE = "fixed" then some (cfg.FIXED_LOAD, g)
  else if cfg.LOAD_MODE = "random" then pyRandint cfg.TRAFFIC_MIN cfg.TRAFFIC_MAX g
  else
    match app_choice with
    | some a => (alookup a APP_PROFILES).map (fun p => (if cfg.USE_PEAK then p.1 else p.2, g))
    | none => do
      let (a, g') ← pyChoice (APP_PROFILES.map Prod.fst) g
      let p ← alookup a APP_PROFILES
      some (if cfg.USE_PEAK then p.1 else p.2, g')

/-- The app-selection block at the top of the annotation loop: in `"apps"` mode
a weighted choice biased by link type, otherwise no app. -/
def appSelect (cfg : Config) (is_access : Bool) (g : Gen) : Option (Option String × Gen) :=
  if cfg.LOAD_MODE = "apps" then
    if is_access then
      (pyChoices (APP_PROFILES.map Prod.fst) [4, 2, 4, 2, 1] g).map (fun p => (some p.1, p.2))
    else
      (pyChoices (APP_PROFILES.map Prod.fst) [2, 4, 1, 4, 3] g).map (fun p => (some p.1, p.2))
  else some (none, g)

/-- One annotated link: `(A, B, bw, load, overloaded, app)`. -/
structure Annot where
  a : Option String
  b : Option String
  bw : Int
  load : Int
  overloaded : Bool
  app : Option String
deriving DecidableEq

/-- `annotate_links_with_load`, threading the random state through the loop. -/
def annotateLinksWithLoad (cfg : Config) (links : List Link) (is_access : Bool) (g : Gen) :
    Option (List Annot × Gen) :=
  match links with
  | [] => some ([], g)
  | (a, b, bw) :: rest => do
    let (app, g1) ← appSelect cfg is_access g
    let (load, g2) ← computeLoad cfg bw app g1
    let (tail, g3) ← annotateLinksWithLoad cfg rest is_access g2
    some (⟨a, b, bw, load, decide (bw > 0 ∧ load > bw), app⟩ :: tail, g3)

/-- `random.seed(RANDOM_SEED)` in `__main__`: an explicit seed replaces the
ambient generator state, no seed keeps it. -/
def seedGen (seed : Option Nat) (g : Gen) : Gen :=
  match seed with
  | some n => ⟨n⟩
  | none => g

/-- The load-annotation part of `__main__`: seed, annotate the router links,
then the access links, threading one random state. -/
def runLoadPipeline (cfg : Config) (g : Gen) (rtrLinks accLinks : List Link) :
    Option (List Annot × List Annot) := do
  let g0 := seedGen cfg.RANDOM_SEED g
  let (r1, g1) ← annotateLinksWithLoad cfg rtrLinks false g0
  let (r2, _) ← annotateLinksWithLoad cfg accLinks true g1
  some (r1, r2)

/-! ## Contiguous-segment test (used to state the LAN fan-out claims) -/

/-- Does `l` begin with the segment `b`? -/
def segStart {α : Type} [DecidableEq α] : List α → List α → Bool
  | [], _ => true
  | _ :: _, [] => false
  | b :: bs, x :: xs => if b = x then segStart bs xs else false

/-- Does `b` occur as a contiguous segment of `l`? -/
def segIn {α : Type} [DecidableEq α] (b : List α) : List α → Bool
  | [] => decide (b = [])
  | x :: t => segStart b (x :: t) || segIn b t

/-! ## Concrete inputs used by the counterexamples and witnesses -/

/-- Names contributed by the still-open interface record. -/
def curNames : Option Iface → List String
  | some c => [c.name]
  | none => []

/-- The endpoint fan-out links of one switch. -/
def epLinksFor (cfg : Config) (sw : String) : List Link :=
  (epNamesFor cfg sw).map (fun ep => (some sw, some ep, cfg.DEFAULT_ENDPOINT_LINK_BW))

/-- One router owning two interfaces on the same `/24` subnet. -/
def oneRouterTwoIfaces : List RouterData :=
  [⟨some "R1", [⟨"e0", some "10.0.0.1", some "255.255.255.0", none⟩,
                ⟨"e1", some "10.0.0.2", some "255.255.255.0", none⟩]⟩]

/-- Two routers on one `/30`; the first interface has a stored bandwidth `0`,
the second a stored bandwidth `5`. -/
def zeroBwRouters : List RouterData :=
  [⟨some "R1", [⟨"e0", some "10.0.0.1", some "255.255.255.252", some 0⟩]⟩,
   ⟨some "R2", [⟨"e0", some "10.0.0.2", some "255.255.255.252", some 5⟩]⟩]

/-- The end-to-end example of the spec: two routers joined on `10.0.0.0/30`,
each with a private `/24` of its own. -/
def twoRouterExample : List RouterData :=
  [⟨some "R1", [⟨"s0", some "10.0.0.1", some "255.255.255.252", none⟩,
                ⟨"e0", some "192.168.1.1", some "255.255.255.0", none⟩]⟩,
   ⟨some "R2", [⟨"s0", some "10.0.0.2", some "255.255.255.252", none⟩,
                ⟨"e0", some "192.168.2.1", some "255.255.255.0", none⟩]⟩]

/-- A router with a syntactically malformed address and mask, exactly as the
parser would store them. -/
def malformedRouter : RouterData :=
  ⟨some "R1", [⟨"Eth0", some "banana", some "potato", none⟩]⟩

/-- Unequal bandwidths: `D` is linked only to `C`, which is not Core. -/
def chainLinks : List Link :=
  [(some "A", some "B", 10), (some "B", some "C", 5), (some "C", some "D", 5)]

/-- Unequal bandwidths with an isolated pair `P`,`Q` never reached from Core. -/
def chainPlusIsland : List Link :=
  [(some "A", some "B", 10), (some "B", some "C", 5), (some "P", some "Q", 5)]

/-- A single router link with equal (trivially) bandwidths. -/
def singleLink : List Link := [(some "R1", some "R2", 10000)]

/-- The script configuration with the load policy switched to `"fixed"`. -/
def fixedCfg : Config := { defaultConfig with LOAD_MODE := "fixed" }

/-- The script configuration with a reproducibility seed set. -/
def seededCfg : Config := { defaultConfig with RANDOM_SEED := some 42 }

/-- All node identifiers touched by a list of links, in order. -/
def nodesOf (links : List Link) : List (Option String) :=
  links.flatMap (fun l => [l.1, l.2.1])

/-- Invariant of the equal-bandwidth pass: the core is at layer 0 and every
other assigned node is at layer 1. -/
def InvEq (core : Option String) (m : LayerMap) : Prop :=
  dget m core = some 0 ∧ ∀ k v, dget m k = some v → k = core ∨ v = 1

/-- The subnet map `infer_access_lans` builds for `twoRouterExample`. -/
def exampleNetMap : List (String × List Attach) :=
  [("10.0.0.0/30", [(some "R1", "s0", 10000), (some "R2", "s0", 10000)]),
   ("192.168.1.0/24", [(some "R1", "e0", 10000)]),
   ("192.168.2.0/24", [(some "R2", "e0", 10000)])]

/-- The switches, endpoints and access links inferred for `twoRouterExample`. -/
def exampleLans : List Switch × List String × List Link :=
  ([⟨"SW_R1_e0", some "R1", "192.168.1.0/24"⟩, ⟨"SW_R2_e0", some "R2", "192.168.2.0/24"⟩],
   ["PC_SW_R1_e0_1", "PC_SW_R1_e0_2", "PC_SW_R2_e0_1", "PC_SW_R2_e0_2"],
   [(some "R1", some "SW_R1_e0", 10000), (some "SW_R1_e0", some "PC_SW_R1_e0_1", 1000),
    (some "SW_R1_e0", some "PC_SW_R1_e0_2", 1000), (some "R2", some "SW_R2_e0", 10000),
    (some "SW_R2_e0", some "PC_SW_R2_e0_1", 1000), (some "SW_R2_e0", some "PC_SW_R2_e0_2", 1000)])

/-- The `(router, iface, network)` helper list the matcher builds for
`twoRouterExample` (the two `s0` interfaces share `10.0.0.0/30`). -/
def exampleEntries : List (Option String × Iface × Net) :=
  [(some "R1", ⟨"s0", some "10.0.0.1", some "255.255.255.252", none⟩, ⟨167772160, 30⟩),
   (some "R1", ⟨"e0", some "192.168.1.1", some "255.255.255.0", none⟩, ⟨3232235776, 24⟩),
   (some "R2", ⟨"s0", some "10.0.0.2", some "255.255.255.252", none⟩, ⟨167772160, 30⟩),
   (some "R2", ⟨"e0", some "192.168.2.1", some "255.255.255.0", none⟩, ⟨3232236032, 24⟩)]

/-! # Theorems -/

/-- C9: `parse_config` stores the 3rd and 4th tokens of an `ip address` line
without validation, so a router record can carry `ip = "banana"`,
`mask = "potato"`; on such a record both `find_router_links` and
`infer_access_lans` raise (modelled as `none`) instead of skipping the
interface: the parser's tolerance does not extend to the matching stage. -/
theorem c9_matcher_raises_on_malformed :
    parseConfig ["hostname R1", "interface Eth0", "ip address banana potato"] =
      ⟨some "R1", [⟨"Eth0", some "banana", some "potato", none⟩]⟩
    ∧ findRouterLinks defaultConfig [malformedRouter] = none
    ∧ inferAccessLans defaultConfig [malformedRouter] = none :=
  ⟨by decide, rfl, rfl⟩

/-- C8: with `RANDOM_SEED` set, the seeded load-annotation pipeline is a
function of the parsed input alone: two runs from arbitrary (even different)
prior states of the random source produce identical annotated links — in
particular identical loads and identical overload flags. -/
theorem c8_seeded_pipeline_deterministic (cfg : Config) (g1 g2 : Gen)
    (rl al : List Link) (h : cfg.RANDOM_SEED.isSome = true) :
    runLoadPipeline cfg g1 rl al = runLoadPipeline cfg g2 rl al := by
  cases hs : cfg.RANDOM_SEED with
  | none => rw [hs] at h; simp at h
  | some n => simp [runLoadPipeline, seedGen, hs]

/-- Witness for C8 at a concrete seeded configuration and two different
ambient generator states. -/
theorem c8_witness :
    seededCfg.RANDOM_SEED.isSome = true
    ∧ runLoadPipeline seededCfg ⟨999⟩ [(some "A", some "B", 5)] []
      = runLoadPipeline seededCfg ⟨123⟩ [(some "A", some "B", 5)] [] :=
  ⟨rfl, c8_seeded_pipeline_deterministic seededCfg ⟨999⟩ ⟨123⟩ [(some "A", some "B", 5)] [] rfl⟩

/-- C10: `compute_load` ignores its bandwidth argument in every load policy,
so two links that differ only in bandwidth, annotated from the same random
state, receive the same load value (and leave the generator in the same
state); only the overload flag can differ. -/
theorem c10_load_independent_of_bandwidth (cfg : Config) (isAcc : Bool) (g : Gen)
    (a b : Option String) (bw1 bw2 : Int) (app : Option String) :
    computeLoad cfg bw1 app g = computeLoad cfg bw2 app g
    ∧ Option.map (fun p => (p.1.map Annot.load, p.2))
        (annotateLinksWithLoad cfg [(a, b, bw1)] isAcc g)
      = Option.map (fun p => (p.1.map Annot.load, p.2))
        (annotateLinksWithLoad cfg [(a, b, bw2)] isAcc g) := by
  refine ⟨rfl, ?_⟩
  cases hap : appSelect cfg isAcc g with
  | none => simp [annotateLinksWithLoad, hap]
  | some p =>
    obtain ⟨app', g1⟩ := p
    have he : computeLoad cfg bw2 app' g1 = computeLoad cfg bw1 app' g1 := rfl
    cases hcl : computeLoad cfg bw1 app' g1 with
    | none => simp [annotateLinksWithLoad, hap, he, hcl]
    | some q => simp [annotateLinksWithLoad, hap, he, hcl]

/-- The one-step unfolding of the annotation loop, in `Option.bind` form. -/
theorem annotate_cons (cfg : Config) (a b : Option String) (bw : Int) (rest : List Link)
    (isAcc : Bool) (g : Gen) :
    annotateLinksWithLoad cfg ((a, b, bw) :: rest) isAcc g =
      (appSelect cfg isAcc g).bind (fun p1 =>
        (computeLoad cfg bw p1.1 p1.2).bind (fun p2 =>
          (annotateLinksWithLoad cfg rest isAcc p2.2).bind (fun p3 =>
            some (⟨a, b, bw, p2.1, decide (bw > 0 ∧ p2.1 > bw), p1.1⟩ :: p3.1, p3.2)))) := rfl

/-- C6: under the `"fixed"` load policy every annotated link carries load
`FIXED_LOAD` and no application label. -/
theorem c6_fixed_mode_constant_load (cfg : Config) (links : List Link) (isAcc : Bool)
    (g : Gen) (out : List Annot) (g2 : Gen) (hm : cfg.LOAD_MODE = "fixed")
    (h : annotateLinksWithLoad cfg links isAcc g = some (out, g2)) :
    (out.all fun t => (t.load == cfg.FIXED_LOAD) && t.app.isNone) = true := by
  induction links generalizing g out g2 with
  | nil =>
    simp only [annotateLinksWithLoad, Option.some.injEq, Prod.mk.injEq] at h
    obtain ⟨h1, h2⟩ := h
    subst h1
    rfl
  | cons l rest ih =>
    obtain ⟨a, b, bw⟩ := l
    rw [annotate_cons] at h
    simp only [Option.bind_eq_some] at h
    obtain ⟨⟨app, g1⟩, hap, ⟨load, gl⟩, hcl, ⟨tail, g3⟩, htail, hout⟩ := h
    simp [appSelect, hm] at hap
    obtain ⟨rfl, rfl⟩ := hap
    simp [computeLoad, hm] at hcl
    obtain ⟨rfl, rfl⟩ := hcl
    simp only [Option.some.injEq, Prod.mk.injEq] at hout
    obtain ⟨h1, h2⟩ := hout
    subst h1
    simp [List.all_cons, ih _ _ _ htail]

/-- Witness for C6 at the concrete fixed-mode configuration. -/
theorem c6_witness :
    fixedCfg.LOAD_MODE = "fixed"
    ∧ annotateLinksWithLoad fixedCfg [(some "A", some "B", 5)] false ⟨7⟩
        = some ([⟨some "A", some "B", 5, 8000, true, none⟩], ⟨7⟩)
    ∧ ([(⟨some "A", some "B", 5, 8000, true, none⟩ : Annot)].all
        fun t => (t.load == fixedCfg.FIXED_LOAD) && t.app.isNone) = true :=
  ⟨rfl, by decide,
   c6_fixed_mode_constant_load fixedCfg [(some "A", some "B", 5)] false ⟨7⟩
     [⟨some "A", some "B", 5, 8000, true, none⟩] ⟨7⟩ rfl (by decide)⟩

/-- C4: every link annotated by `annotate_links_with_load` has its overload
flag true exactly when its bandwidth is strictly positive and its load
strictly exceeds that bandwidth; in particular a zero-bandwidth link is never
flagged, whatever its load. -/
theorem c4_overload_iff_positive_bw_and_excess_load (cfg : Config) (links : List Link)
    (isAcc : Bool) (g : Gen) (out : List Annot) (g2 : Gen)
    (h : annotateLinksWithLoad cfg links isAcc g = some (out, g2)) :
    (out.all fun t => t.overloaded == decide (0 < t.bw ∧ t.bw < t.load)) = true
    ∧ (out.all fun t => !(t.bw == 0) || !t.overloaded) = true := by
  induction links generalizing g out g2 with
  | nil =>
    simp only [annotateLinksWithLoad, Option.some.injEq, Prod.mk.injEq] at h
    obtain ⟨h1, h2⟩ := h
    subst h1
    exact ⟨rfl, rfl⟩
  | cons l rest ih =>
    obtain ⟨a, b, bw⟩ := l
    rw [annotate_cons] at h
    simp only [Option.bind_eq_some] at h
    obtain ⟨⟨app, g1⟩, hap, ⟨load, gl⟩, hcl, ⟨tail, g3⟩, htail, hout⟩ := h
    simp only [Option.some.injEq, Prod.mk.injEq] at hout
    obtain ⟨h1, h2⟩ := hout
    subst h1
    have hih := ih _ _ _ htail
    refine ⟨?_, ?_⟩
    · simp only [List.all_cons, hih.1, Bool.and_true]
      simp
    · simp only [List.all_cons, hih.2, Bool.and_true]
      by_cases hbw : bw = 0
      · subst hbw; simp
      · simp [hbw]

/-- Witness for C4: a concrete fixed-mode annotation containing an overloaded
link and a zero-bandwidth link. -/
theorem c4_witness :
    annotateLinksWithLoad fixedCfg [(some "A", some "B", 5), (some "A", some "C", 0)] false ⟨7⟩
      = some ([⟨some "A", some "B", 5, 8000, true, none⟩,
               ⟨some "A", some "C", 0, 8000, false, none⟩], ⟨7⟩)
    ∧ (([⟨some "A", some "B", 5, 8000, true, none⟩,
         ⟨some "A", some "C", 0, 8000, false, none⟩] : List Annot).all
        fun t => t.overloaded == decide (0 < t.bw ∧ t.bw < t.load)) = true
    ∧ (([⟨some "A", some "B", 5, 8000, true, none⟩,
         ⟨some "A", some "C", 0, 8000, false, none⟩] : List Annot).all
        fun t => !(t.bw == 0) || !t.overloaded) = true :=
  ⟨by decide,
   (c4_overload_iff_positive_bw_and_excess_load fixedCfg
     [(some "A", some "B", 5), (some "A", some "C", 0)] false ⟨7⟩
     [⟨some "A", some "B", 5, 8000, true, none⟩, ⟨some "A", some "C", 0, 8000, false, none⟩]
     ⟨7⟩ (by decide)).1,
   (c4_overload_iff_positive_bw_and_excess_load fixedCfg
     [(some "A", some "B", 5), (some "A", some "C", 0)] false ⟨7⟩
     [⟨some "A", some "B", 5, 8000, true, none⟩, ⟨some "A", some "C", 0, 8000, false, none⟩]
     ⟨7⟩ (by decide)).2⟩

/-- Mapping names through `closeCur` appends the open record's name. -/
theorem closeCur_names (acc : List Iface) (cur : Option Iface) :
    (closeCur acc cur).map Iface.name = acc.map Iface.name ++ curNames cur := by
  cases cur <;> simp [closeCur, curNames]

/-- A line beginning with `hostname` does not begin with `interface`. -/
theorem hostname_not_interface {l : String} (h : pyStartsWith l "hostname" = true) :
    pyStartsWith l "interface" = false := by
  unfold pyStartsWith at h ⊢
  have hd : "hostname".data = ['h', 'o', 's', 't', 'n', 'a', 'm', 'e'] := rfl
  have hi : "interface".data = ['i', 'n', 't', 'e', 'r', 'f', 'a', 'c', 'e'] := rfl
  rw [hd] at h
  rw [hi]
  cases hc : l.data with
  | nil => rw [hc] at h; exact absurd h (by decide)
  | cons c cs =>
    rw [hc] at h
    simp only [strStarts, Bool.and_eq_true, decide_eq_true_eq] at h
    simp only [strStarts, Bool.and_eq_false_iff]
    left
    rw [← h.1]
    decide

/-- A line beginning with `interface` is not the empty line. -/
theorem interface_line_ne_empty {l : String} (h : pyStartsWith l "interface" = true) :
    ¬l = "" := by
  intro he
  subst he
  exact absurd h (by decide)

/-- The fold of `parse_config` closes interface records in the order their
directive lines occur, with the still-open record appended last. -/
theorem parse_names_aux (lines : List String) : ∀ st : PState,
    (closeCur (lines.foldl parseLine st).acc (lines.foldl parseLine st).current).map Iface.name
      = st.acc.map Iface.name ++ curNames st.current
        ++ (interfaceLines lines).map ifaceNameOfLine := by
  induction lines with
  | nil => intro st; simp [interfaceLines, closeCur_names]
  | cons l ls ih =>
    intro st
    rw [List.foldl_cons]
    have hIL : interfaceLines (l :: ls) =
        if pyStartsWith (pyTrim l) "interface" = true then pyTrim l :: interfaceLines ls
        else interfaceLines ls := by
      simp [interfaceLines, List.filter_cons]
    by_cases h0 : pyTrim l = ""
    · have hni : pyStartsWith (pyTrim l) "interface" = false := by
        rw [h0]; decide
      rw [show parseLine st l = st by simp [parseLine, h0]]
      rw [ih st, hIL, hni]
      simp
    · by_cases h1 : pyStartsWith (pyTrim l) "hostname" = true
      · have hni := hostname_not_interface h1
        have hstep : parseLine st l =
            (if 2 ≤ (pySplit (pyTrim l)).length
             then { st with hostname := some ((pySplit (pyTrim l)).getD 1 "") } else st) := by
          simp [parseLine, h0, h1]
        rw [hstep, hIL, hni]
        split
        · rw [ih]; simp
        · rw [ih]; simp
      · by_cases h2 : pyStartsWith (pyTrim l) "interface" = true
        · have hstep : parseLine st l =
              { hostname := st.hostname, acc := closeCur st.acc st.current,
                current := some ⟨ifaceNameOfLine (pyTrim l), none, none, none⟩ } := by
            simp [parseLine, h0, h1, h2]
          rw [hstep, hIL, h2, ih]
          simp [closeCur_names, curNames]
        · by_cases h3 : pyStartsWith (pyTrim l) "ip address" = true
          · cases hcur : st.current with
            | none =>
              have hstep : parseLine st l = st := by
                simp [parseLine, h0, h1, h2, h3, hcur]
              rw [hstep, hIL, if_neg h2, ih]
              simp [hcur, curNames]
            | some c =>
              by_cases hlen : 4 ≤ (pySplit (pyTrim l)).length
              · have hstep : parseLine st l =
                    { st with current := some { c with
                        ip := some ((pySplit (pyTrim l)).getD 2 ""),
                        mask := some ((pySplit (pyTrim l)).getD 3 "") } } := by
                  simp [parseLine, h0, h1, h2, h3, hcur, hlen]
                rw [hstep, hIL, if_neg h2, ih]
                simp [hcur, curNames]
              · have hstep : parseLine st l = st := by
                  simp [parseLine, h0, h1, h2, h3, hcur, hlen]
                rw [hstep, hIL, if_neg h2, ih]
                simp [hcur, curNames]
          · by_cases h4 : pyStartsWith (pyTrim l) "bandwidth" = true
            · cases hcur : st.current with
              | none =>
                have hstep : parseLine st l = st := by
                  simp [parseLine, h0, h1, h2, h3, h4, hcur]
                rw [hstep, hIL, if_neg h2, ih]
                simp [hcur, curNames]
              | some c =>
                by_cases hlen : 2 ≤ (pySplit (pyTrim l)).length
                · cases hint : pyToInt ((pySplit (pyTrim l))[1]?.getD "") with
                  | none =>
                    have hstep : parseLine st l = st := by
                      simp [parseLine, h0, h1, h2, h3, h4, hcur, hlen, hint]
                    rw [hstep, hIL, if_neg h2, ih]
                    simp [hcur, curNames]
                  | some n =>
                    have hstep : parseLine st l =
                        { st with current := some { c with bandwidth := some n } } := by
                      simp [parseLine, h0, h1, h2, h3, h4, hcur, hlen, hint]
                    rw [hstep, hIL, if_neg h2, ih]
                    simp [hcur, curNames]
                · have hstep : parseLine st l = st := by
                    simp [parseLine, h0, h1, h2, h3, h4, hcur, hlen]
                  rw [hstep, hIL, if_neg h2, ih]
                  simp [hcur, curNames]
            · have hstep : parseLine st l = st := by
                simp [parseLine, h0, h1, h2, h3, h4]
              rw [hstep, hIL, if_neg h2, ih]

/-- C7: `parse_config` is order-preserving — the interface records in its
output carry, in order, exactly the names derived from the `interface`
directive lines of the input, the still-open record being appended at end of
input. -/
theorem c7_parse_order_preserving (lines : List String) :
    (parseConfig lines).interfaces.map Iface.name
      = (interfaceLines lines).map ifaceNameOfLine := by
  have h := parse_names_aux lines ⟨none, [], none⟩
  simpa [parseConfig, curNames] using h

/-! ## Layer-map dictionary lemmas -/

theorem dget_dset_self (m : LayerMap) (k : Option String) (v : Nat) :
    dget (dset m k v) k = some v := by
  induction m with
  | nil => simp [dset, dget, alookup]
  | cons p r ih =>
    obtain ⟨k', v'⟩ := p
    by_cases h : k' = k
    · simp [dset, h, dget, alookup]
    · simp only [dset, if_neg h]
      simpa [dget, alookup, h] using ih

theorem dget_dset_ne (m : LayerMap) (k k' : Option String) (v : Nat) (h : k' ≠ k) :
    dget (dset m k v) k' = dget m k' := by
  induction m with
  | nil => simp [dset, dget, alookup, Ne.symm h]
  | cons p r ih =>
    obtain ⟨ka, va⟩ := p
    by_cases hk : ka = k
    · subst hk
      simp [dset, dget, alookup, Ne.symm h]
    · simp only [dset, if_neg hk]
      by_cases hk' : ka = k'
      · simp [dget, alookup, hk']
      · simpa [dget, alookup, hk'] using ih

theorem dget_append_some {m : LayerMap} (m' : LayerMap) {k : Option String} {v : Nat}
    (h : dget m k = some v) : dget (m ++ m') k = some v := by
  induction m with
  | nil => simp [dget, alookup] at h
  | cons p r ih =>
    obtain ⟨ka, va⟩ := p
    by_cases hk : ka = k
    · simp [dget, alookup, hk] at h ⊢
      exact h
    · simp [dget, alookup, hk] at h ⊢
      exact ih h

theorem dget_append_none {m : LayerMap} (m' : LayerMap) {k : Option String}
    (h : dget m k = none) : dget (m ++ m') k = dget m' k := by
  induction m with
  | nil => simp [dget, alookup]
  | cons p r ih =>
    obtain ⟨ka, va⟩ := p
    by_cases hk : ka = k
    · simp [dget, alookup, hk] at h
    · simp [dget, alookup, hk] at h ⊢
      exact ih h

theorem dsetd_of_some {m : LayerMap} {k : Option String} (v : Nat) {w : Nat}
    (h : dget m k = some w) : dsetd m k v = m := by
  unfold dsetd
  rw [show alookup k m = some w from h]

theorem dget_dsetd_none_self {m : LayerMap} {k : Option String} (v : Nat)
    (h : dget m k = none) : dget (dsetd m k v) k = some v := by
  unfold dsetd
  rw [show alookup k m = none from h]
  rw [dget_append_none _ h]
  simp [dget, alookup]

theorem dget_dsetd_mono {m : LayerMap} {k' : Option String} {v' : Nat}
    (k : Option String) (v : Nat) (h : dget m k' = some v') :
    dget (dsetd m k v) k' = some v' := by
  unfold dsetd
  cases hk : alookup k m with
  | some w => exact h
  | none => exact dget_append_some _ h

theorem dget_dsetd_ne {m : LayerMap} {k k' : Option String} (v : Nat) (h : k' ≠ k) :
    dget (dsetd m k v) k' = dget m k' := by
  unfold dsetd
  cases hk : alookup k m with
  | some w => rfl
  | none =>
    cases hk' : dget m k' with
    | some w => exact dget_append_some _ hk'
    | none =>
      rw [dget_append_none _ hk']
      simp [dget, alookup, Ne.symm h]

theorem dget_dsetd_self_isSome (m : LayerMap) (k : Option String) (v : Nat) :
    (dget (dsetd m k v) k).isSome = true := by
  cases hk : dget m k with
  | some w => rw [dget_dsetd_mono k v hk]; rfl
  | none => rw [dget_dsetd_none_self v hk]; rfl

theorem dget_dsetd_isSome {m : LayerMap} {k' : Option String}
    (k : Option String) (v : Nat) (h : (dget m k').isSome = true) :
    (dget (dsetd m k v) k').isSome = true := by
  cases hk : dget m k' with
  | some w => rw [dget_dsetd_mono k v hk]; rfl
  | none => rw [hk] at h; simp at h

theorem dget_dset_isSome {m : LayerMap} {k' : Option String}
    (k : Option String) (v : Nat) (h : (dget m k').isSome = true) :
    (dget (dset m k v) k').isSome = true := by
  by_cases hk : k' = k
  · subst hk; rw [dget_dset_self]; rfl
  · rw [dget_dset_ne _ _ _ _ hk]; exact h

/-! ## Equal-bandwidth pass invariants -/

theorem dsetd1_inv {core : Option String} {m : LayerMap} {k : Option String}
    (hk : k ≠ core) (h : InvEq core m) : InvEq core (dsetd m k 1) := by
  refine ⟨dget_dsetd_mono k 1 h.1, ?_⟩
  intro k'' v hv
  by_cases hkk : k'' = k
  · subst hkk
    cases hmk : dget m k'' with
    | none =>
      rw [dget_dsetd_none_self 1 hmk] at hv
      right
      exact (Option.some_inj.mp hv).symm
    | some w =>
      rw [dsetd_of_some 1 hmk] at hv
      exact h.2 _ _ hv
  · rw [dget_dsetd_ne 1 hkk] at hv
    exact h.2 _ _ hv

theorem passEqStep_inv {core : Option String} {m : LayerMap} (a b : Option String)
    (h : InvEq core m) : InvEq core (passEqStep core m a b) := by
  simp only [passEqStep]
  by_cases hb : b ≠ core
  · rw [if_pos hb]
    by_cases ha : a ≠ core
    · rw [if_pos ha]; exact dsetd1_inv hb (dsetd1_inv ha h)
    · rw [if_neg ha]; exact dsetd1_inv hb h
  · rw [if_neg hb]
    by_cases ha : a ≠ core
    · rw [if_pos ha]; exact dsetd1_inv ha h
    · rw [if_neg ha]; exact h

theorem passEq_inv (core : Option String) : ∀ (links : List Link) (m : LayerMap),
    InvEq core m → InvEq core (passEq core links m) := by
  intro links
  induction links with
  | nil => intro m h; exact h
  | cons l rest ih =>
    intro m h
    obtain ⟨a, b, bw⟩ := l
    exact ih _ (passEqStep_inv a b h)

theorem passEqStep_preserves_isSome {core : Option String} {m : LayerMap}
    (a b : Option String) {k : Option String} (h : (dget m k).isSome = true) :
    (dget (passEqStep core m a b) k).isSome = true := by
  simp only [passEqStep]
  by_cases hb : b ≠ core
  · rw [if_pos hb]
    by_cases ha : a ≠ core
    · rw [if_pos ha]; exact dget_dsetd_isSome b 1 (dget_dsetd_isSome a 1 h)
    · rw [if_neg ha]; exact dget_dsetd_isSome b 1 h
  · rw [if_neg hb]
    by_cases ha : a ≠ core
    · rw [if_pos ha]; exact dget_dsetd_isSome a 1 h
    · rw [if_neg ha]; exact h

theorem passEq_preserves_isSome (core : Option String) : ∀ (links : List Link)
    (m : LayerMap) (k : Option String), (dget m k).isSome = true →
    (dget (passEq core links m) k).isSome = true := by
  intro links
  induction links with
  | nil => intro m k h; exact h
  | cons l rest ih =>
    intro m k h
    obtain ⟨a, b, bw⟩ := l
    exact ih _ _ (passEqStep_preserves_isSome a b h)

theorem passEqStep_present_a {core : Option String} (m : LayerMap) {a : Option String}
    (b : Option String) (ha : a ≠ core) :
    (dget (passEqStep core m a b) a).isSome = true := by
  simp only [passEqStep]
  rw [if_pos ha]
  by_cases hb : b ≠ core
  · rw [if_pos hb]
    exact dget_dsetd_isSome b 1 (dget_dsetd_self_isSome m a 1)
  · rw [if_neg hb]
    exact dget_dsetd_self_isSome m a 1

theorem passEqStep_present_b {core : Option String} (m : LayerMap) (a : Option String)
    {b : Option String} (hb : b ≠ core) :
    (dget (passEqStep core m a b) b).isSome = true := by
  simp only [passEqStep]
  rw [if_pos hb]
  exact dget_dsetd_self_isSome _ b 1

theorem passEq_touch (core : Option String) : ∀ (links : List Link) (m : LayerMap)
    (l : Link), l ∈ links →
    (l.1 ≠ core → (dget (passEq core links m) l.1).isSome = true)
    ∧ (l.2.1 ≠ core → (dget (passEq core links m) l.2.1).isSome = true) := by
  intro links
  induction links with
  | nil => intro m l h; exact absurd h (List.not_mem_nil l)
  | cons hd rest ih =>
    intro m l hl
    obtain ⟨a, b, bw⟩ := hd
    rcases List.mem_cons.mp hl with heq | hmem
    · subst heq
      constructor
      · intro ha
        exact passEq_preserves_isSome core rest _ _ (passEqStep_present_a m b ha)
      · intro hb
        exact passEq_preserves_isSome core rest _ _ (passEqStep_present_b m a hb)
    · exact ih _ l hmem

theorem swPass_dget : ∀ (sws : List Switch) (m : LayerMap) (k : Option String),
    (∀ s ∈ sws, (some s.name : Option String) ≠ k) → dget (swPass sws m) k = dget m k := by
  intro sws
  induction sws with
  | nil => intro m k h; rfl
  | cons s rest ih =>
    intro m k h
    have hs : (some s.name : Option String) ≠ k := h s (List.mem_cons_self s rest)
    have hrest : ∀ s' ∈ rest, (some s'.name : Option String) ≠ k :=
      fun s' hs' => h s' (List.mem_cons_of_mem s hs')
    show dget (swPass rest (dset m (some s.name) 2)) k = dget m k
    rw [ih _ _ hrest, dget_dset_ne _ _ _ _ (fun he => hs he.symm)]

theorem epPass_dget : ∀ (eps : List String) (m : LayerMap) (k : Option String),
    (∀ e ∈ eps, (some e : Option String) ≠ k) → dget (epPass eps m) k = dget m k := by
  intro eps
  induction eps with
  | nil => intro m k h; rfl
  | cons e rest ih =>
    intro m k h
    have hs : (some e : Option String) ≠ k := h e (List.mem_cons_self e rest)
    have hrest : ∀ e' ∈ rest, (some e' : Option String) ≠ k :=
      fun e' he' => h e' (List.mem_cons_of_mem e he')
    show dget (epPass rest (dset m (some e) 3)) k = dget m k
    rw [ih _ _ hrest, dget_dset_ne _ _ _ _ (fun he => hs he.symm)]

/-- C5: when the router-link list is non-empty and all bandwidths are equal,
the first router of the first link is assigned layer 0 (Core) and every other
router appearing in any link is assigned layer 1 (Distribution) — provided no
switch or endpoint name collides with a router identifier. -/
theorem c5_equal_bandwidths_core_first (l0 : Link) (rest : List Link)
    (sws : List Switch) (eps : List String)
    (heq : maxOf l0.2.2 (rest.map (fun l => l.2.2)) = minOf l0.2.2 (rest.map (fun l => l.2.2)))
    (hsw : ∀ s ∈ sws, (some s.name : Option String) ∉ nodesOf (l0 :: rest))
    (hep : ∀ e ∈ eps, (some e : Option String) ∉ nodesOf (l0 :: rest)) :
    dget (autoAssignLayers (l0 :: rest) sws eps) l0.1 = some 0
    ∧ ((l0 :: rest).all fun l =>
        ((l.1 == l0.1) || (dget (autoAssignLayers (l0 :: rest) sws eps) l.1 == some 1))
        && ((l.2.1 == l0.1) || (dget (autoAssignLayers (l0 :: rest) sws eps) l.2.1 == some 1)))
      = true := by
  have hR : routerLayerMap (l0 :: rest) = passEq l0.1 (l0 :: rest) (dset [] l0.1 0) := by
    simp only [routerLayerMap]
    rw [if_pos heq]
  have hInv0 : InvEq l0.1 (dset [] l0.1 0) := by
    refine ⟨dget_dset_self [] l0.1 0, ?_⟩
    intro k v hv
    by_cases hk : k = l0.1
    · exact Or.inl hk
    · rw [show dset ([] : LayerMap) l0.1 0 = [(l0.1, 0)] from rfl] at hv
      simp [dget, alookup, Ne.symm hk] at hv
  have hInv : InvEq l0.1 (passEq l0.1 (l0 :: rest) (dset [] l0.1 0)) :=
    passEq_inv _ _ _ hInv0
  have hpres : ∀ k, k ∈ nodesOf (l0 :: rest) →
      dget (autoAssignLayers (l0 :: rest) sws eps) k
        = dget (passEq l0.1 (l0 :: rest) (dset [] l0.1 0)) k := by
    intro k hk
    unfold autoAssignLayers
    rw [hR]
    rw [epPass_dget _ _ _ (fun e he hek => (hep e he) (hek ▸ hk))]
    exact swPass_dget _ _ _ (fun s hs hsk => (hsw s hs) (hsk ▸ hk))
  constructor
  · have hmem : l0.1 ∈ nodesOf (l0 :: rest) := by
      simp [nodesOf]
    rw [hpres _ hmem]
    exact hInv.1
  · rw [List.all_eq_true]
    intro l hl
    simp only [Bool.and_eq_true, Bool.or_eq_true, beq_iff_eq]
    constructor
    · by_cases hc : l.1 = l0.1
      · exact Or.inl hc
      · refine Or.inr ?_
        have hmem : l.1 ∈ nodesOf (l0 :: rest) := by
          simp only [nodesOf, List.mem_flatMap]
          exact ⟨l, hl, by simp⟩
        rw [hpres _ hmem]
        have hsome := (passEq_touch l0.1 (l0 :: rest) (dset [] l0.1 0) l hl).1 hc
        obtain ⟨v, hv⟩ := Option.isSome_iff_exists.mp hsome
        rcases hInv.2 _ _ hv with hkc | h1
        · exact absurd hkc hc
        · rw [hv, h1]
    · by_cases hc : l.2.1 = l0.1
      · exact Or.inl hc
      · refine Or.inr ?_
        have hmem : l.2.1 ∈ nodesOf (l0 :: rest) := by
          simp only [nodesOf, List.mem_flatMap]
          exact ⟨l, hl, by simp⟩
        rw [hpres _ hmem]
        have hsome := (passEq_touch l0.1 (l0 :: rest) (dset [] l0.1 0) l hl).2 hc
        obtain ⟨v, hv⟩ := Option.isSome_iff_exists.mp hsome
        rcases hInv.2 _ _ hv with hkc | h1
        · exact absurd hkc hc
        · rw [hv, h1]

/-- Witness for C5 at the spec's single-link example. -/
theorem c5_witness :
    maxOf ((some "R1", some "R2", (10000 : Int)) : Link).2.2
        (([] : List Link).map (fun l => l.2.2))
      = minOf ((some "R1", some "R2", (10000 : Int)) : Link).2.2
        (([] : List Link).map (fun l => l.2.2))
    ∧ dget (autoAssignLayers singleLink [] []) (some "R1") = some 0
    ∧ (singleLink.all fun l =>
        ((l.1 == (some "R1" : Option String))
          || (dget (autoAssignLayers singleLink [] []) l.1 == some 1))
        && ((l.2.1 == (some "R1" : Option String))
          || (dget (autoAssignLayers singleLink [] []) l.2.1 == some 1))) = true :=
  ⟨rfl,
   (c5_equal_bandwidths_core_first (some "R1", some "R2", 10000) [] [] [] rfl
     (by simp) (by simp)).1,
   (c5_equal_bandwidths_core_first (some "R1", some "R2", 10000) [] [] [] rfl
     (by simp) (by simp)).2⟩

/-! ## Second- and third-pass invariants (unequal-bandwidth branch) -/

theorem pass2step_preserves {m : LayerMap} (a b : Option String) {k : Option String} {v : Nat}
    (h : dget m k = some v) : dget (pass2step m a b) k = some v := by
  simp only [pass2step]
  by_cases h1 : ((dget m a).isNone && (dget m b).isSome) = true
  · rw [if_pos h1]
    have hka : k ≠ a := by
      intro he; subst he
      rw [h] at h1; simp at h1
    have hm1 : dget (dset m a 1) k = some v := by
      rw [dget_dset_ne _ _ _ _ hka]; exact h
    by_cases h2 : ((dget (dset m a 1) b).isNone && (dget (dset m a 1) a).isSome) = true
    · rw [if_pos h2]
      have hkb : k ≠ b := by
        intro he; subst he
        rw [hm1] at h2; simp at h2
      rw [dget_dset_ne _ _ _ _ hkb]; exact hm1
    · rw [if_neg h2]; exact hm1
  · rw [if_neg h1]
    by_cases h2 : ((dget m b).isNone && (dget m a).isSome) = true
    · rw [if_pos h2]
      have hkb : k ≠ b := by
        intro he; subst he
        rw [h] at h2; simp at h2
      rw [dget_dset_ne _ _ _ _ hkb]; exact h
    · rw [if_neg h2]; exact h

theorem pass2step_isSome_mono {m : LayerMap} (a b : Option String) {k : Option String}
    (h : (dget m k).isSome = true) : (dget (pass2step m a b) k).isSome = true := by
  obtain ⟨v, hv⟩ := Option.isSome_iff_exists.mp h
  rw [pass2step_preserves a b hv]; rfl

theorem pass2step_assigns_left (m : LayerMap) (x c : Option String)
    (hc : (dget m c).isSome = true) : (dget (pass2step m x c) x).isSome = true := by
  simp only [pass2step]
  by_cases h1 : ((dget m x).isNone && (dget m c).isSome) = true
  · rw [if_pos h1]
    have hx1 : (dget (dset m x 1) x).isSome = true := by rw [dget_dset_self]; rfl
    by_cases h2 : ((dget (dset m x 1) c).isNone && (dget (dset m x 1) x).isSome) = true
    · rw [if_pos h2]; exact dget_dset_isSome _ _ hx1
    · rw [if_neg h2]; exact hx1
  · rw [if_neg h1]
    have hx : (dget m x).isSome = true := by
      rcases hh : dget m x with _ | w
      · exact absurd (by rw [hh]; simp [hc]) h1
      · rfl
    by_cases h2 : ((dget m c).isNone && (dget m x).isSome) = true
    · rw [if_pos h2]; exact dget_dset_isSome _ _ hx
    · rw [if_neg h2]; exact hx

theorem pass2step_assigns_right (m : LayerMap) (c x : Option String)
    (hc : (dget m c).isSome = true) : (dget (pass2step m c x) x).isSome = true := by
  simp only [pass2step]
  have h1 : ¬ (((dget m c).isNone && (dget m x).isSome) = true) := by
    obtain ⟨w, hw⟩ := Option.isSome_iff_exists.mp hc
    rw [hw]; simp
  rw [if_neg h1]
  by_cases h2 : ((dget m x).isNone && (dget m c).isSome) = true
  · rw [if_pos h2]; rw [dget_dset_self]; rfl
  · rw [if_neg h2]
    rcases hh : dget m x with _ | w
    · exact absurd (by rw [hh]; simp [hc]) h2
    · rfl

theorem pass2step_only_one {m : LayerMap} (a b : Option String) {k : Option String}
    (hk : dget m k = none) :
    dget (pass2step m a b) k = none ∨ dget (pass2step m a b) k = some 1 := by
  simp only [pass2step]
  by_cases h1 : ((dget m a).isNone && (dget m b).isSome) = true
  · rw [if_pos h1]
    by_cases hka : k = a
    · subst hka
      have hm1 : dget (dset m k 1) k = some 1 := dget_dset_self _ _ _
      by_cases h2 : ((dget (dset m k 1) b).isNone && (dget (dset m k 1) k).isSome) = true
      · rw [if_pos h2]
        by_cases hkb : k = b
        · rw [← hkb, hm1] at h2; simp at h2
        · right; rw [dget_dset_ne _ _ _ _ hkb]; exact hm1
      · rw [if_neg h2]; right; exact hm1
    · have hm1 : dget (dset m a 1) k = none := by
        rw [dget_dset_ne _ _ _ _ hka]; exact hk
      by_cases h2 : ((dget (dset m a 1) b).isNone && (dget (dset m a 1) a).isSome) = true
      · rw [if_pos h2]
        by_cases hkb : k = b
        · subst hkb; right; rw [dget_dset_self]
        · left; rw [dget_dset_ne _ _ _ _ hkb]; exact hm1
      · rw [if_neg h2]; left; exact hm1
  · rw [if_neg h1]
    by_cases h2 : ((dget m b).isNone && (dget m a).isSome) = true
    · rw [if_pos h2]
      by_cases hkb : k = b
      · subst hkb; right; rw [dget_dset_self]
      · left; rw [dget_dset_ne _ _ _ _ hkb]; exact hk
    · rw [if_neg h2]; left; exact hk

theorem pass2_preserves : ∀ (links : List Link) {m : LayerMap} {k : Option String} {v : Nat},
    dget m k = some v → dget (pass2 links m) k = some v := by
  intro links
  induction links with
  | nil => intro m k v h; exact h
  | cons l rest ih =>
    intro m k v h
    obtain ⟨a, b, bw⟩ := l
    exact ih (pass2step_preserves a b h)

theorem pass2_preserves_isSome : ∀ (links : List Link) {m : LayerMap} {k : Option String},
    (dget m k).isSome = true → (dget (pass2 links m) k).isSome = true := by
  intro links m k h
  obtain ⟨v, hv⟩ := Option.isSome_iff_exists.mp h
  rw [pass2_preserves links hv]; rfl

theorem pass2_only_one : ∀ (links : List Link) (m : LayerMap) (k : Option String),
    dget m k = none → dget (pass2 links m) k = none ∨ dget (pass2 links m) k = some 1 := by
  intro links
  induction links with
  | nil => intro m k h; exact Or.inl h
  | cons l rest ih =>
    intro m k h
    obtain ⟨a, b, bw⟩ := l
    rcases pass2step_only_one a b h with hnone | hone
    · exact ih _ _ hnone
    · exact Or.inr (pass2_preserves rest hone)

theorem pass2_assigns : ∀ (links : List Link) (m : LayerMap) (x c : Option String) (bw : Int),
    ((x, c, bw) ∈ links ∨ (c, x, bw) ∈ links) → (dget m c).isSome = true →
    (dget (pass2 links m) x).isSome = true := by
  intro links
  induction links with
  | nil =>
    intro m x c bw h hc
    rcases h with h | h <;> exact absurd h (List.not_mem_nil _)
  | cons hd rest ih =>
    intro m x c bw h hc
    obtain ⟨a, b, bwh⟩ := hd
    have hcstep : (dget (pass2step m a b) c).isSome = true := pass2step_isSome_mono a b hc
    rcases h with h | h
    · rcases List.mem_cons.mp h with heq | hmem
      · injection heq with h1 h23
        injection h23 with h2 h3
        subst h1
        subst h2
        exact pass2_preserves_isSome rest (pass2step_assigns_left m x c hc)
      · exact ih _ _ _ _ (Or.inl hmem) hcstep
    · rcases List.mem_cons.mp h with heq | hmem
      · injection heq with h1 h23
        injection h23 with h2 h3
        subst h1
        subst h2
        exact pass2_preserves_isSome rest (pass2step_assigns_right m c x hc)
      · exact ih _ _ _ _ (Or.inr hmem) hcstep

theorem dsetd_only {m : LayerMap} {k : Option String} (a : Option String) (v : Nat)
    (hk : dget m k = none) :
    dget (dsetd m a v) k = none ∨ dget (dsetd m a v) k = some v := by
  by_cases hka : k = a
  · subst hka
    right
    exact dget_dsetd_none_self v hk
  · left
    rw [dget_dsetd_ne v hka]; exact hk

theorem pass3_preserves : ∀ (links : List Link) {m : LayerMap} {k : Option String} {v : Nat},
    dget m k = some v → dget (pass3 links m) k = some v := by
  intro links
  induction links with
  | nil => intro m k v h; exact h
  | cons l rest ih =>
    intro m k v h
    obtain ⟨a, b, bw⟩ := l
    exact ih (dget_dsetd_mono b 2 (dget_dsetd_mono a 2 h))

theorem pass3_preserves_isSome : ∀ (links : List Link) {m : LayerMap} {k : Option String},
    (dget m k).isSome = true → (dget (pass3 links m) k).isSome = true := by
  intro links m k h
  obtain ⟨v, hv⟩ := Option.isSome_iff_exists.mp h
  rw [pass3_preserves links hv]; rfl

theorem pass3_only_two : ∀ (links : List Link) (m : LayerMap) (k : Option String),
    dget m k = none → dget (pass3 links m) k = none ∨ dget (pass3 links m) k = some 2 := by
  intro links
  induction links with
  | nil => intro m k h; exact Or.inl h
  | cons l rest ih =>
    intro m k h
    obtain ⟨a, b, bw⟩ := l
    rcases dsetd_only a 2 h with ha | ha
    · rcases dsetd_only b 2 ha with hb | hb
      · exact ih _ _ hb
      · exact Or.inr (pass3_preserves rest hb)
    · exact Or.inr (pass3_preserves rest (dget_dsetd_mono b 2 ha))

theorem pass3_touch : ∀ (links : List Link) (m : LayerMap) (l : Link), l ∈ links →
    (dget (pass3 links m) l.1).isSome = true
    ∧ (dget (pass3 links m) l.2.1).isSome = true := by
  intro links
  induction links with
  | nil => intro m l h; exact absurd h (List.not_mem_nil _)
  | cons hd rest ih =>
    intro m l hl
    obtain ⟨a, b, bw⟩ := hd
    rcases List.mem_cons.mp hl with heq | hmem
    · subst heq
      constructor
      · exact pass3_preserves_isSome rest
          (dget_dsetd_isSome _ 2 (dget_dsetd_self_isSome m _ 2))
      · exact pass3_preserves_isSome rest (dget_dsetd_self_isSome _ _ 2)
    · exact ih _ l hmem

/-- C3 counterexample: in `chainLinks` the bandwidths are not all equal, the
first layer pass makes `A` and `B` Core, router `D` is not Core and shares no
link with a Core router (its only neighbour is `C`), yet the sequential
second pass assigns `D` layer 1 — the claim's "if and only if" would require
layer 2.  Layer 1 propagates along the link list through routers assigned
earlier in the same pass. -/
theorem c3_counterexample :
    ¬ maxOf (10 : Int) [5, 5] = minOf (10 : Int) [5, 5]
    ∧ dget (pass1 10 chainLinks []) (some "D") = none
    ∧ (chainLinks.all fun l =>
        (!(l.1 == (some "D" : Option String)) || !(dget (pass1 10 chainLinks []) l.2.1 == some 0))
        && (!(l.2.1 == (some "D" : Option String)) || !(dget (pass1 10 chainLinks []) l.1 == some 0)))
      = true
    ∧ dget (autoAssignLayers chainLinks [] []) (some "D") = some 1 :=
  ⟨by decide, by decide, by decide, by decide⟩

/-- C3 amended: when the router-link bandwidths are not all equal, a non-Core
router directly linked to a Core router is assigned layer 1 (the "if"
direction survives; the "only if" fails because the sequential second pass can
also propagate layer 1 through routers assigned earlier in the same pass, see
the counterexample); and every router touched by some link and still
unassigned after the two passes is assigned layer 2. -/
theorem c3_distribution_if_linked_to_core (l0 : Link) (rest : List Link)
    (sws : List Switch) (eps : List String) (x c : Option String) (bw : Int)
    (y z : Option String) (bwy : Int) (mb : Int)
    (hmb : mb = maxOf l0.2.2 (rest.map (fun l => l.2.2)))
    (hne : ¬ maxOf l0.2.2 (rest.map (fun l => l.2.2))
      = minOf l0.2.2 (rest.map (fun l => l.2.2)))
    (hlink : (x, c, bw) ∈ (l0 :: rest) ∨ (c, x, bw) ∈ (l0 :: rest))
    (hcore : dget (pass1 mb (l0 :: rest) []) c = some 0)
    (hx : dget (pass1 mb (l0 :: rest) []) x = none)
    (hy : (y, z, bwy) ∈ (l0 :: rest) ∨ (z, y, bwy) ∈ (l0 :: rest))
    (hy2 : dget (pass2 (l0 :: rest) (pass1 mb (l0 :: rest) [])) y = none)
    (hswx : ∀ s ∈ sws, (some s.name : Option String) ≠ x)
    (hepx : ∀ e ∈ eps, (some e : Option String) ≠ x)
    (hswy : ∀ s ∈ sws, (some s.name : Option String) ≠ y)
    (hepy : ∀ e ∈ eps, (some e : Option String) ≠ y) :
    dget (autoAssignLayers (l0 :: rest) sws eps) x = some 1
    ∧ dget (autoAssignLayers (l0 :: rest) sws eps) y = some 2 := by
  have hR : routerLayerMap (l0 :: rest)
      = pass3 (l0 :: rest) (pass2 (l0 :: rest) (pass1 mb (l0 :: rest) [])) := by
    simp only [routerLayerMap]
    rw [if_neg hne, ← hmb]
  have hx2some : (dget (pass2 (l0 :: rest) (pass1 mb (l0 :: rest) [])) x).isSome = true :=
    pass2_assigns (l0 :: rest) _ x c bw hlink (by rw [hcore]; rfl)
  have hx2 : dget (pass2 (l0 :: rest) (pass1 mb (l0 :: rest) [])) x = some 1 := by
    rcases pass2_only_one (l0 :: rest) _ x hx with hnone | hone
    · rw [hnone] at hx2some; simp at hx2some
    · exact hone
  have hx3 : dget (pass3 (l0 :: rest) (pass2 (l0 :: rest) (pass1 mb (l0 :: rest) []))) x
      = some 1 := pass3_preserves _ hx2
  have hy3some : (dget (pass3 (l0 :: rest)
      (pass2 (l0 :: rest) (pass1 mb (l0 :: rest) []))) y).isSome = true := by
    rcases hy with hmem | hmem
    · exact (pass3_touch (l0 :: rest) _ (y, z, bwy) hmem).1
    · exact (pass3_touch (l0 :: rest) _ (z, y, bwy) hmem).2
  have hy3 : dget (pass3 (l0 :: rest) (pass2 (l0 :: rest) (pass1 mb (l0 :: rest) []))) y
      = some 2 := by
    rcases pass3_only_two (l0 :: rest) _ y hy2 with hnone | htwo
    · rw [hnone] at hy3some; simp at hy3some
    · exact htwo
  constructor
  · show dget (epPass eps (swPass sws (routerLayerMap (l0 :: rest)))) x = some 1
    rw [epPass_dget _ _ _ hepx, swPass_dget _ _ _ hswx, hR]
    exact hx3
  · show dget (epPass eps (swPass sws (routerLayerMap (l0 :: rest)))) y = some 2
    rw [epPass_dget _ _ _ hepy, swPass_dget _ _ _ hswy, hR]
    exact hy3

/-- Witness for the amended C3 on `chainPlusIsland`: `C` is linked to Core `B`
and gets layer 1; `P` is touched but unreached and gets layer 2. -/
theorem c3_witness :
    dget (pass1 10 chainPlusIsland []) (some "B") = some 0
    ∧ dget (pass1 10 chainPlusIsland []) (some "C") = none
    ∧ dget (pass2 chainPlusIsland (pass1 10 chainPlusIsland [])) (some "P") = none
    ∧ dget (autoAssignLayers chainPlusIsland [] []) (some "C") = some 1
    ∧ dget (autoAssignLayers chainPlusIsland [] []) (some "P") = some 2 :=
  ⟨by decide, by decide, by decide,
   (c3_distribution_if_linked_to_core (some "A", some "B", 10)
     [(some "B", some "C", 5), (some "P", some "Q", 5)] [] []
     (some "C") (some "B") 5 (some "P") (some "Q") 5 10
     (by decide) (by decide) (Or.inr (by decide)) (by decide) (by decide)
     (Or.inl (by decide)) (by decide) (by simp) (by simp) (by simp) (by simp)).1,
   (c3_distribution_if_linked_to_core (some "A", some "B", 10)
     [(some "B", some "C", 5), (some "P", some "Q", 5)] [] []
     (some "C") (some "B") 5 (some "P") (some "Q") 5 10
     (by decide) (by decide) (Or.inr (by decide)) (by decide) (by decide)
     (Or.inl (by decide)) (by decide) (by simp) (by simp) (by simp) (by simp)).2⟩

/-! ## Router-link matcher -/

/-- Every ordered pair `i < j` of matcher entries with equal networks yields
a link whose bandwidth is the Python `or`-chain of the two interface
bandwidths and the default. -/
theorem pairLoop_mem (cfg : Config) : ∀ (l : List (Option String × Iface × Net))
    (i j : Nat) (ra : Option String) (ia : Iface) (na : Net)
    (rb : Option String) (ib : Iface) (nb : Net),
    i < j → l[i]? = some (ra, ia, na) → l[j]? = some (rb, ib, nb) → na = nb →
    (ra, rb, pyOrInt ia.bandwidth (pyOrInt ib.bandwidth cfg.DEFAULT_ROUTER_IF_BW))
      ∈ pairLoop cfg l := by
  intro l
  induction l with
  | nil =>
    intro i j ra ia na rb ib nb hij h1 h2 hn
    simp at h1
  | cons e rest ih =>
    intro i j ra ia na rb ib nb hij h1 h2 hn
    obtain ⟨re, ie, ne⟩ := e
    cases i with
    | zero =>
      rw [List.getElem?_cons_zero] at h1
      injection h1 with h1'
      injection h1' with ha h1''
      injection h1'' with hb hc
      subst ha
      subst hb
      subst hc
      cases j with
      | zero => exact absurd hij (by omega)
      | succ j' =>
        rw [List.getElem?_cons_succ] at h2
        have hmem : (rb, ib, nb) ∈ rest := by
          have := List.getElem?_eq_some_iff.mp h2
          obtain ⟨hlt, hget⟩ := this
          exact hget ▸ List.getElem_mem hlt
        apply List.mem_append_left
        apply List.mem_filterMap.mpr
        refine ⟨(rb, ib, nb), hmem, ?_⟩
        rw [if_pos hn]
    | succ i' =>
      cases j with
      | zero => exact absurd hij (by omega)
      | succ j' =>
        rw [List.getElem?_cons_succ] at h1
        rw [List.getElem?_cons_succ] at h2
        apply List.mem_append_right
        exact ih i' j' ra ia na rb ib nb (by omega) h1 h2 hn

/-- C2 counterexample: `parse_config` stores a literal `bandwidth 0`; when
interface A carries that stored `0` and interface B carries `5`, the emitted
link bandwidth is `5`, not A's present value `0` — Python's `or`-chain skips
a stored zero exactly like an absent bandwidth. -/
theorem c2_counterexample :
    parseConfig ["interface e0", "ip address 10.0.0.1 255.255.255.252", "bandwidth 0"]
      = ⟨none, [⟨"e0", some "10.0.0.1", some "255.255.255.252", some 0⟩]⟩
    ∧ buildAllIfaces zeroBwRouters
      = some [(some "R1", ⟨"e0", some "10.0.0.1", some "255.255.255.252", some 0⟩, ⟨167772160, 30⟩),
              (some "R2", ⟨"e0", some "10.0.0.2", some "255.255.255.252", some 5⟩, ⟨167772160, 30⟩)]
    ∧ findRouterLinks defaultConfig zeroBwRouters = some [(some "R1", some "R2", 5)]
    ∧ ¬ (5 : Int) = 0 :=
  ⟨by decide, by decide, by decide, by decide⟩

/-- C2 amended: for every unordered pair of distinct matcher entries with
equal computed subnets, the emitted link's bandwidth is the first *truthy*
value among interface A's bandwidth, interface B's bandwidth and
`DEFAULT_ROUTER_IF_BW` — Python's `or` treats a stored `0` like absence
(see the counterexample), otherwise a present bandwidth of A wins. -/
theorem c2_pair_links_bandwidth (cfg : Config) (routers : List RouterData)
    (entries : List (Option String × Iface × Net)) (links : List Link)
    (i j : Nat) (ra : Option String) (ia : Iface) (na : Net)
    (rb : Option String) (ib : Iface) (nb : Net)
    (hE : buildAllIfaces routers = some entries)
    (hL : findRouterLinks cfg routers = some links)
    (hij : i < j)
    (hi : entries[i]? = some (ra, ia, na))
    (hj : entries[j]? = some (rb, ib, nb))
    (hn : na = nb) :
    links = pairLoop cfg entries
    ∧ (ra, rb, pyOrInt ia.bandwidth (pyOrInt ib.bandwidth cfg.DEFAULT_ROUTER_IF_BW))
      ∈ links := by
  have hlinks : links = pairLoop cfg entries := by
    unfold findRouterLinks at hL
    rw [hE] at hL
    have hL' : some (pairLoop cfg entries) = some links := hL
    injection hL' with h
    exact h.symm
  refine ⟨hlinks, ?_⟩
  rw [hlinks]
  exact pairLoop_mem cfg entries i j ra ia na rb ib nb hij hi hj hn

/-- Witness for the amended C2 on the two-router example (both bandwidths
absent, so the default is emitted). -/
theorem c2_witness :
    buildAllIfaces twoRouterExample = some exampleEntries
    ∧ findRouterLinks defaultConfig twoRouterExample = some [(some "R1", some "R2", 10000)]
    ∧ ([(some "R1", some "R2", 10000)] : List Link) = pairLoop defaultConfig exampleEntries
    ∧ ((some "R1", some "R2",
        pyOrInt (none : Option Int) (pyOrInt (none : Option Int)
          defaultConfig.DEFAULT_ROUTER_IF_BW)) : Link)
      ∈ ([(some "R1", some "R2", 10000)] : List Link) :=
  ⟨by decide, by decide,
   (c2_pair_links_bandwidth defaultConfig twoRouterExample exampleEntries
     [(some "R1", some "R2", 10000)] 0 2 (some "R1")
     ⟨"s0", some "10.0.0.1", some "255.255.255.252", none⟩ ⟨167772160, 30⟩
     (some "R2") ⟨"s0", some "10.0.0.2", some "255.255.255.252", none⟩ ⟨167772160, 30⟩
     (by decide) (by decide) (by omega) (by decide) (by decide) (by decide)).1,
   (c2_pair_links_bandwidth defaultConfig twoRouterExample exampleEntries
     [(some "R1", some "R2", 10000)] 0 2 (some "R1")
     ⟨"s0", some "10.0.0.1", some "255.255.255.252", none⟩ ⟨167772160, 30⟩
     (some "R2") ⟨"s0", some "10.0.0.2", some "255.255.255.252", none⟩ ⟨167772160, 30⟩
     (by decide) (by decide) (by omega) (by decide) (by decide) (by decide)).2⟩

/-! ## Access-LAN inferrer -/

theorem segStart_self {α : Type} [DecidableEq α] : ∀ (b t : List α),
    segStart b (b ++ t) = true := by
  intro b
  induction b with
  | nil => intro t; rfl
  | cons x xs ih => intro t; simpa [segStart] using ih t

theorem segIn_self {α : Type} [DecidableEq α] (b t : List α) : segIn b (b ++ t) = true := by
  cases b with
  | nil => cases t <;> simp [segIn, segStart]
  | cons y ys =>
    show segIn (y :: ys) (y :: (ys ++ t)) = true
    have h := segStart_self (y :: ys) t
    simp only [segIn]
    rw [show ((y :: ys) ++ t) = y :: (ys ++ t) from rfl] at h
    rw [h]
    rfl

theorem segIn_cons {α : Type} [DecidableEq α] (b : List α) (x : α) (l : List α)
    (h : segIn b l = true) : segIn b (x :: l) = true := by
  simp [segIn, h]

theorem segIn_append_left {α : Type} [DecidableEq α] (pre : List α) {b l : List α}
    (h : segIn b l = true) : segIn b (pre ++ l) = true := by
  induction pre with
  | nil => exact h
  | cons x xs ih => exact segIn_cons _ x _ ih

theorem addAttach_keys {κ α : Type} [DecidableEq κ] (m : List (κ × List α)) (k : κ) (v : α) :
    keysOf (addAttach m k v)
      = if k ∈ keysOf m then keysOf m else keysOf m ++ [k] := by
  induction m with
  | nil => simp [addAttach, keysOf]
  | cons p r ih =>
    obtain ⟨k', vs⟩ := p
    by_cases h : k' = k
    · subst h
      simp [addAttach, keysOf]
    · have hstep : addAttach ((k', vs) :: r) k v = (k', vs) :: addAttach r k v := by
        simp [addAttach, h]
      rw [hstep]
      show k' :: keysOf (addAttach r k v)
        = if k ∈ (k' :: keysOf r) then (k' :: keysOf r) else (k' :: keysOf r) ++ [k]
      rw [ih]
      by_cases hm : k ∈ keysOf r
      · rw [if_pos hm, if_pos (List.mem_cons_of_mem _ hm)]
      · rw [if_neg hm, if_neg (show ¬ k ∈ k' :: keysOf r from by
          intro hc
          rcases List.mem_cons.mp hc with h1 | h1
          · exact h h1.symm
          · exact hm h1)]
        rfl

theorem addAttach_nodup {κ α : Type} [DecidableEq κ] (m : List (κ × List α)) (k : κ) (v : α)
    (h : (keysOf m).Nodup) : (keysOf (addAttach m k v)).Nodup := by
  rw [addAttach_keys]
  by_cases hm : k ∈ keysOf m
  · rw [if_pos hm]; exact h
  · rw [if_neg hm]
    refine List.Nodup.append h (List.nodup_singleton k) ?_
    intro a ha hb
    rw [List.mem_singleton] at hb
    subst hb
    exact hm ha

theorem nmGo_nodup (cfg : Config) : ∀ (entries : List (Option String × Iface))
    (m res : List (String × List Attach)), (keysOf m).Nodup →
    nmGo cfg entries m = some res → (keysOf res).Nodup := by
  intro entries
  induction entries with
  | nil =>
    intro m res h hgo
    simp only [nmGo, Option.some.injEq] at hgo
    exact hgo ▸ h
  | cons e rest ih =>
    intro m res h hgo
    obtain ⟨hn, i⟩ := e
    simp only [nmGo] at hgo
    cases hnet : mkIPv4Net (i.ip.getD "") (i.mask.getD "") with
    | none => rw [hnet] at hgo; exact absurd hgo (by simp)
    | some net =>
      rw [hnet] at hgo
      exact ih _ _ (addAttach_nodup _ _ _ h) hgo

theorem lanFold_lanNet_mem (cfg : Config) : ∀ (m : List (String × List Attach)) (s : Switch),
    s ∈ (lanFold cfg m).1 → s.lan_net ∈ keysOf m := by
  intro m
  induction m with
  | nil => intro s h; simp [lanFold] at h
  | cons p r ih =>
    intro s h
    obtain ⟨net, atts⟩ := p
    rcases atts with _ | ⟨⟨rn, inm, rb⟩, _ | ⟨a2, rest2⟩⟩
    · exact List.mem_cons_of_mem _ (ih s h)
    · simp only [lanFold, List.mem_cons] at h
      rcases h with heq | hmem
      · subst heq
        exact List.mem_cons_self _ _
      · exact List.mem_cons_of_mem _ (ih s hmem)
    · exact List.mem_cons_of_mem _ (ih s h)

theorem epNamesFor_length (cfg : Config) (sw : String) :
    (epNamesFor cfg sw).length = cfg.ENDPOINTS_PER_LAN := by
  simp [epNamesFor]

/-- Core of the amended C1, by induction over the grouped subnet map. -/
theorem lanFold_lookup_spec (cfg : Config) : ∀ (m : List (String × List Attach)),
    (keysOf m).Nodup → ∀ (net : String) (atts : List Attach), alookup net m = some atts →
    (match atts with
     | [(r, i, b)] =>
         (lanFold cfg m).1.filter (fun s => s.lan_net == net) = [⟨swNameFor r i, r, net⟩]
         ∧ segIn ((r, some (swNameFor r i), b) :: epLinksFor cfg (swNameFor r i))
             (lanFold cfg m).2.2 = true
         ∧ segIn (epNamesFor cfg (swNameFor r i)) (lanFold cfg m).2.1 = true
     | _ => (lanFold cfg m).1.filter (fun s => s.lan_net == net) = []) := by
  intro m
  induction m with
  | nil => intro _ net atts h; simp [alookup] at h
  | cons p r ih =>
    intro hnd net atts hl
    obtain ⟨k, as⟩ := p
    have hndr : (keysOf r).Nodup := (List.nodup_cons.mp hnd).2
    have hknr : k ∉ keysOf r := (List.nodup_cons.mp hnd).1
    have htail_nil : ∀ net', net' ∉ keysOf r →
        (lanFold cfg r).1.filter (fun s => s.lan_net == net') = [] := by
      intro net' hn'
      apply List.filter_eq_nil_iff.mpr
      intro s hs
      have := lanFold_lanNet_mem cfg r s hs
      simp only [beq_iff_eq]
      intro he
      exact hn' (he ▸ this)
    by_cases hk : k = net
    · subst hk
      have has : atts = as := by
        simp [alookup] at hl
        exact hl.symm
      subst has
      rcases atts with _ | ⟨⟨rn, inm, rb⟩, _ | ⟨a2, rest2⟩⟩
      · show (lanFold cfg ((k, []) :: r)).1.filter (fun s => s.lan_net == k) = []
        show (lanFold cfg r).1.filter (fun s => s.lan_net == k) = []
        exact htail_nil k hknr
      · show _ ∧ _ ∧ _
        refine ⟨?_, ?_, ?_⟩
        · show (⟨swNameFor rn inm, rn, k⟩ :: (lanFold cfg r).1).filter
            (fun s => s.lan_net == k) = [⟨swNameFor rn inm, rn, k⟩]
          rw [List.filter_cons_of_pos (by simp)]
          rw [htail_nil k hknr]
        · exact segIn_self _ _
        · exact segIn_self _ _
      · show (lanFold cfg ((k, _ :: a2 :: rest2) :: r)).1.filter (fun s => s.lan_net == k) = []
        show (lanFold cfg r).1.filter (fun s => s.lan_net == k) = []
        exact htail_nil k hknr
    · have hl' : alookup net r = some atts := by
        simpa [alookup, hk] using hl
      have IH := ih hndr net atts hl'
      rcases as with _ | ⟨⟨rn, inm, rb⟩, _ | ⟨a2, rest2⟩⟩
      · exact IH
      · have hfilter : (⟨swNameFor rn inm, rn, k⟩ :: (lanFold cfg r).1).filter
            (fun s => s.lan_net == net) = (lanFold cfg r).1.filter (fun s => s.lan_net == net) := by
          rw [List.filter_cons_of_neg (by simp [hk])]
        rcases atts with _ | ⟨⟨r1, i1, b1⟩, _ | ⟨c2, crest⟩⟩
        · show (lanFold cfg ((k, [(rn, inm, rb)]) :: r)).1.filter (fun s => s.lan_net == net) = []
          show (⟨swNameFor rn inm, rn, k⟩ :: (lanFold cfg r).1).filter
            (fun s => s.lan_net == net) = []
          rw [hfilter]
          exact IH
        · obtain ⟨IH1, IH2, IH3⟩ := IH
          refine ⟨?_, ?_, ?_⟩
          · show (⟨swNameFor rn inm, rn, k⟩ :: (lanFold cfg r).1).filter
              (fun s => s.lan_net == net) = [⟨swNameFor r1 i1, r1, net⟩]
            rw [hfilter]
            exact IH1
          · exact segIn_append_left _ IH2
          · exact segIn_append_left _ IH3
        · show (lanFold cfg ((k, [(rn, inm, rb)]) :: r)).1.filter (fun s => s.lan_net == net) = []
          show (⟨swNameFor rn inm, rn, k⟩ :: (lanFold cfg r).1).filter
            (fun s => s.lan_net == net) = []
          rw [hfilter]
          exact IH
      · exact IH

/-- C1 counterexample: in `oneRouterTwoIfaces` the single subnet
`10.0.0.0/24` is attached to two interfaces that both belong to router `R1` —
exactly one router — yet `infer_access_lans` synthesizes no switch and no
endpoints at all, because the code tests for exactly one attached *interface
entry* (`len(attaches) == 1`), not exactly one owning router. -/
theorem c1_counterexample :
    buildNetMap defaultConfig oneRouterTwoIfaces
      = some [("10.0.0.0/24", [(some "R1", "e0", 10000), (some "R1", "e1", 10000)])]
    ∧ inferAccessLans defaultConfig oneRouterTwoIfaces = some ([], [], []) :=
  ⟨by decide, rfl⟩

/-- C1 amended: a subnet attached to exactly one interface entry (hence to
exactly one router) yields exactly one switch, its router link, and exactly
`ENDPOINTS_PER_LAN` endpoints hanging under it; a subnet attached to two or
more interface entries — in particular one attached to two or more distinct
routers, but also one whose entries all belong to a single router — yields no
switch. -/
theorem c1_single_attach_switch (cfg : Config) (routers : List RouterData)
    (m : List (String × List Attach)) (sws : List Switch) (eps : List String)
    (alinks : List Link) (net : String) (atts : List Attach)
    (hM : buildNetMap cfg routers = some m)
    (hI : inferAccessLans cfg routers = some (sws, eps, alinks))
    (hl : alookup net m = some atts) :
    (match atts with
     | [(r, i, b)] =>
         sws.filter (fun s => s.lan_net == net) = [⟨swNameFor r i, r, net⟩]
         ∧ segIn ((r, some (swNameFor r i), b) :: epLinksFor cfg (swNameFor r i)) alinks = true
         ∧ segIn (epNamesFor cfg (swNameFor r i)) eps = true
         ∧ (epNamesFor cfg (swNameFor r i)).length = cfg.ENDPOINTS_PER_LAN
     | _ => sws.filter (fun s => s.lan_net == net) = []) := by
  have hfold : lanFold cfg m = (sws, eps, alinks) := by
    unfold inferAccessLans at hI
    rw [hM] at hI
    have hI' : some (lanFold cfg m) = some (sws, eps, alinks) := hI
    injection hI'
  have hnd : (keysOf m).Nodup :=
    nmGo_nodup cfg (ifaceEntryList routers) [] m (by simp [keysOf]) hM
  have hspec := lanFold_lookup_spec cfg m hnd net atts hl
  rw [hfold] at hspec
  rcases atts with _ | ⟨⟨r1, i1, b1⟩, _ | ⟨x2, xs⟩⟩
  · exact hspec
  · obtain ⟨h1, h2, h3⟩ := hspec
    exact ⟨h1, h2, h3, epNamesFor_length cfg _⟩
  · exact hspec

/-- Witness for the amended C1 on the two-router example: the subnet
`192.168.1.0/24` has the single attach `(R1, e0)` and receives one switch and
`ENDPOINTS_PER_LAN` endpoints. -/
theorem c1_witness :
    buildNetMap defaultConfig twoRouterExample = some exampleNetMap
    ∧ inferAccessLans defaultConfig twoRouterExample = some exampleLans
    ∧ alookup "192.168.1.0/24" exampleNetMap = some [(some "R1", "e0", 10000)]
    ∧ (exampleLans.1.filter (fun s => s.lan_net == "192.168.1.0/24")
        = [⟨swNameFor (some "R1") "e0", some "R1", "192.168.1.0/24"⟩]
      ∧ segIn ((some "R1", some (swNameFor (some "R1") "e0"), 10000)
          :: epLinksFor defaultConfig (swNameFor (some "R1") "e0")) exampleLans.2.2 = true
      ∧ segIn (epNamesFor defaultConfig (swNameFor (some "R1") "e0")) exampleLans.2.1 = true
      ∧ (epNamesFor defaultConfig (swNameFor (some "R1") "e0")).length
          = defaultConfig.ENDPOINTS_PER_LAN) :=
  ⟨by decide, rfl, by decide,
   c1_single_attach_switch defaultConfig twoRouterExample exampleNetMap
     exampleLans.1 exampleLans.2.1 exampleLans.2.2 "192.168.1.0/24"
     [(some "R1", "e0", 10000)] (by decide) rfl (by decide)⟩

end AutoTopo
